import Mathlib

/-!
Verification development for the AWS Karpenter cloud-provider core: a shallow
embedding, in Lean, of the launch-orchestrator pipeline (`pkg/providers/instance`),
the instance-type catalog (`pkg/providers/instancetype`), and the node-class
status reconciler, together with proofs about the embedded definitions.

Go `float64` prices and quantities are modelled as exact rationals; Go maps and
slices as lists; fallible lookups as `Option`. Helper functions whose Go source
lives in the external `karpenter-core` library (not in this repository's files)
are modelled from the specification's description and marked as such in their
doc comments.
-/

-- Batteries marks the rational-number operations irreducible; reduction is
-- restored locally so that concrete witnesses evaluate by kernel computation.
attribute [local semireducible] Rat.add Rat.mul Rat.sub Rat.ofScientific Rat.inv

namespace Karpenter

/-- Capacity type "spot" (v1alpha5.CapacityTypeSpot). -/
def capacityTypeSpot : String := "spot"

/-- Capacity type "on-demand" (v1alpha5.CapacityTypeOnDemand). -/
def capacityTypeOnDemand : String := "on-demand"

/-- The Go `math.MaxFloat64` sentinel used by the price ordering, as an exact
rational: `(2 - 2^-52) * 2^1023 = 2^1024 - 2^971`. -/
def maxFloat64 : ℚ := mkRat (Int.ofNat (2 ^ 1024 - 2 ^ 971)) 1

/-- An offering of the karpenter-core `cloudprovider` package: a capacity type
and zone with a price and an availability flag. -/
structure Offering where
  capacityType : String
  zone : String
  price : ℚ
  available : Bool
deriving DecidableEq

/-- Modelled from the spec: karpenter-core `Offerings.Available()` keeps the
offerings whose `Available` flag is set. -/
def availableOfferings (ofs : List Offering) : List Offering :=
  ofs.filter (·.available)

/-- The two requirement lookups the launch pipeline performs on a machine's
scheduling requirements: membership of a capacity type in the capacity-type
requirement and membership of a zone in the zone requirement
(`requirements.Get(label).Has(value)` in the source). -/
structure Requirements where
  ctHas : String → Bool
  zoneHas : String → Bool

/-- Modelled from the spec: karpenter-core `Offerings.Requirements(reqs)` keeps
the offerings satisfying the requirement set, i.e. whose capacity type and zone
are admitted. -/
def offeringsRequirements (reqs : Requirements) (ofs : List Offering) : List Offering :=
  ofs.filter (fun o => reqs.ctHas o.capacityType && reqs.zoneHas o.zone)

/-- Modelled from the spec: karpenter-core `Offerings.Cheapest()` returns the
offering with the minimal price, the first one winning ties; `none` on an
empty list. -/
def cheapestOffering (ofs : List Offering) : Option Offering :=
  ofs.foldl
    (fun acc o =>
      match acc with
      | none => some o
      | some c => if o.price < c.price then some o else some c)
    none

/-- The slice of a resolved `cloudprovider.InstanceType` that the launch
pipeline of `pkg/providers/instance` reads: its name, its offerings, whether
its size requirement holds "metal", and its accelerator capacity counts. -/
structure InstanceType where
  name : String
  offerings : List Offering
  sizeMetal : Bool
  capNeuron : ℕ
  capAMDGPU : ℕ
  capNVIDIAGPU : ℕ
  capHabanaGaudi : ℕ
deriving DecidableEq

/-- `MaxInstanceTypes` of `pkg/providers/instance`: the number of instance type
options to pass to CreateFleet. -/
def MaxInstanceTypes : ℕ := 60

/-- `Provider.getCapacityType`: selects spot iff the requirements admit spot
and some candidate has an available spot offering in an admitted zone;
otherwise on-demand. -/
def getCapacityType (reqs : Requirements) (instanceTypes : List InstanceType) : String :=
  if reqs.ctHas capacityTypeSpot &&
      instanceTypes.any (fun it =>
        (availableOfferings it.offerings).any (fun o =>
          reqs.zoneHas o.zone && o.capacityType == capacityTypeSpot)) then
    capacityTypeSpot
  else
    capacityTypeOnDemand

/-- The price key of `orderInstanceTypesByPrice`: the price of the cheapest
available offering satisfying the requirements, `math.MaxFloat64` when there is
none. -/
def priceKey (reqs : Requirements) (it : InstanceType) : ℚ :=
  match cheapestOffering (offeringsRequirements reqs (availableOfferings it.offerings)) with
  | some o => o.price
  | none => maxFloat64

/-- Go string comparison `a > b` (bytewise lexicographic; equal to the
codepoint-lexicographic order on the character lists). -/
def nameGt (a b : String) : Bool := decide (b.data < a.data)

/-- The `less` comparator of `orderInstanceTypesByPrice`'s `sort.Slice` call:
cheaper first; on equal prices, lexicographically larger name first. -/
def ltInstanceType (reqs : Requirements) (a b : InstanceType) : Bool :=
  let iPrice := priceKey reqs a
  let jPrice := priceKey reqs b
  if iPrice = jPrice then nameGt a.name b.name else decide (iPrice < jPrice)

/-- The non-strict order induced by the comparator: `a` may stand before `b`. -/
def leInstanceType (reqs : Requirements) (a b : InstanceType) : Prop :=
  ltInstanceType reqs b a = false

instance (reqs : Requirements) : DecidableRel (leInstanceType reqs) := fun _ _ =>
  instDecidableEqBool _ _

/-- `orderInstanceTypesByPrice`: sorts the instance types with the comparator
above (`sort.Slice` is modelled by insertion sort, which produces a
permutation ordered by the same comparator). -/
def orderInstanceTypesByPrice (reqs : Requirements) (instanceTypes : List InstanceType) :
    List InstanceType :=
  instanceTypes.insertionSort (leInstanceType reqs)

/-- The truncation step of `Provider.Create`: after ordering, keep at most
`MaxInstanceTypes` instance types. -/
def truncateInstanceTypes (instanceTypes : List InstanceType) : List InstanceType :=
  if MaxInstanceTypes < instanceTypes.length then
    instanceTypes.take MaxInstanceTypes
  else
    instanceTypes

/-- `filterExoticInstanceTypes`: drop metal sizes and types with Neuron, AMD,
NVIDIA or Habana accelerators; if nothing generic remains, keep the original
list. -/
def filterExoticInstanceTypes (instanceTypes : List InstanceType) : List InstanceType :=
  let genericInstanceTypes := instanceTypes.filter (fun it =>
    !it.sizeMetal && it.capNeuron == 0 && it.capAMDGPU == 0 &&
      it.capNVIDIAGPU == 0 && it.capHabanaGaudi == 0)
  if genericInstanceTypes.isEmpty then instanceTypes else genericInstanceTypes

/-- `Provider.isMixedCapacityLaunch`: true when the requirements admit both
capacity types and the candidates have, in admitted zones, both an available
spot offering and an available non-spot offering. -/
def isMixedCapacityLaunch (reqs : Requirements) (instanceTypes : List InstanceType) : Bool :=
  if !reqs.ctHas capacityTypeSpot || !reqs.ctHas capacityTypeOnDemand then
    false
  else
    let hasSpotOfferings := reqs.ctHas capacityTypeSpot &&
      instanceTypes.any (fun it =>
        (availableOfferings it.offerings).any (fun o =>
          reqs.zoneHas o.zone && o.capacityType == capacityTypeSpot))
    let hasODOffering := reqs.ctHas capacityTypeSpot &&
      instanceTypes.any (fun it =>
        (availableOfferings it.offerings).any (fun o =>
          reqs.zoneHas o.zone && !(o.capacityType == capacityTypeSpot)))
    hasSpotOfferings && hasODOffering

/-- The first loop of `filterUnwantedSpot`: the price of the cheapest available
on-demand offering over all candidate types, starting from `math.MaxFloat64`. -/
def cheapestOnDemandPrice (instanceTypes : List InstanceType) : ℚ :=
  instanceTypes.foldl
    (fun cheapest it =>
      (availableOfferings it.offerings).foldl
        (fun cheapest o =>
          if o.capacityType == capacityTypeOnDemand && decide (o.price < cheapest) then
            o.price
          else
            cheapest)
        cheapest)
    maxFloat64

/-- `filterUnwantedSpot`: keep a type only if it has available offerings and
its cheapest available offering is no more expensive than the cheapest
on-demand price (for an on-demand cheapest offering) or than that price times
0.72 (for a spot cheapest offering). -/
def filterUnwantedSpot (instanceTypes : List InstanceType) : List InstanceType :=
  let cheapestOnDemand := cheapestOnDemandPrice instanceTypes
  instanceTypes.filter (fun it =>
    match cheapestOffering (availableOfferings it.offerings) with
    | none => false
    | some cheapest =>
      if cheapest.capacityType == capacityTypeOnDemand then
        decide (cheapest.price ≤ cheapestOnDemand)
      else
        decide (cheapest.price ≤ cheapestOnDemand * 0.72))

/-- `Provider.filterInstanceTypes`: exotic filtering always, the unwanted-spot
filtering only for a mixed-capacity launch. -/
def filterInstanceTypes (reqs : Requirements) (instanceTypes : List InstanceType) :
    List InstanceType :=
  let instanceTypes := filterExoticInstanceTypes instanceTypes
  if isMixedCapacityLaunch reqs instanceTypes then
    filterUnwantedSpot instanceTypes
  else
    instanceTypes

/-- An `ec2.CreateFleetError`: a per-offering error of a CreateFleet response,
with its (possibly absent) code and message strings. -/
structure CreateFleetError where
  errorCode : Option String
  errorMessage : Option String
deriving DecidableEq

/-- An entry of `CreateFleetOutput.Instances`. -/
structure CreateFleetInstance where
  instanceIds : List String
deriving DecidableEq

/-- The slice of `ec2.CreateFleetOutput` the launch path reads. -/
structure CreateFleetOutput where
  instances : List CreateFleetInstance
  errors : List CreateFleetError
deriving DecidableEq

/-- The observable content of the error built by `combineFleetErrors`: the
deduplicated formatted messages, and whether the whole was wrapped in the
dedicated `InsufficientCapacityError`. -/
structure CombinedError where
  messages : List String
  insufficientCapacity : Bool
deriving DecidableEq

/-- The `fmt.Sprintf("%s: %s", code, message)` formatting of one fleet error
(`aws.StringValue` reads an absent string as empty). -/
def fleetErrorMessage (e : CreateFleetError) : String :=
  (e.errorCode.getD "") ++ ": " ++ (e.errorMessage.getD "")

/-- `combineFleetErrors`, parameterized by the `awserrors.IsUnfulfillableCapacity`
classifier (its Go source lives in `pkg/errors`, outside this repository's
files): deduplicate the formatted per-offering errors, and wrap the combined
error as the dedicated insufficient-capacity error exactly when the count of
ICE-classified errors equals the number of errors. -/
def combineFleetErrors (isICE : CreateFleetError → Bool) (errors : List CreateFleetError) :
    CombinedError :=
  let unique := (errors.map fleetErrorMessage).eraseDups
  let iceErrorCount := errors.countP isICE
  { messages := unique, insufficientCapacity := iceErrorCount == errors.length }

/-- The tail of `Provider.launchInstance` after a successful CreateFleet call:
when the response carries no instance id, the combined fleet error is returned;
otherwise the first instance id. -/
def launchInstanceFleetResult (isICE : CreateFleetError → Bool) (out : CreateFleetOutput) :
    Except CombinedError String :=
  match out.instances with
  | [] => .error (combineFleetErrors isICE out.errors)
  | inst :: _ =>
    match inst.instanceIds with
    | [] => .error (combineFleetErrors isICE out.errors)
    | id :: _ => .ok id

/-- A launch error as `Provider.Create` observes it: whether the
`awserrors.IsLaunchTemplateNotFound` classifier (whose Go source lives in
`pkg/errors`, outside this repository's files) accepts it, plus its code. -/
structure LaunchError where
  isLaunchTemplateNotFound : Bool
  code : String
deriving DecidableEq

/-- The launch-attempt loop of `Provider.Create` (lines 96-101): run
`launchInstance` once; if the error is launch-template-not-found, run it a
second time and return that result; otherwise return the first result.
`attempts n` is the outcome of the (n+1)-th `launchInstance` call. -/
def createLaunch (attempts : ℕ → Except LaunchError String) : Except LaunchError String :=
  match attempts 0 with
  | .error e => if e.isLaunchTemplateNotFound then attempts 1 else .error e
  | .ok id => .ok id

/-- Modelled from the spec: the launch-template cache (a set of template
names); `launchTemplateProvider.Invalidate` removes a template's entry. -/
def invalidateLaunchTemplates (cache ltNames : List String) : List String :=
  ltNames.foldl (fun c n => c.filter (fun e => !(e == n))) cache

/-- The CreateFleet error branch of `Provider.launchInstance` (lines 257-263):
on a launch-template-not-found error every launch template of the request is
invalidated in the cache and the error is returned; any other error is
returned with the cache untouched. -/
def launchInstanceFleetErrorStep (cache ltNames : List String) (e : LaunchError) :
    List String × Except LaunchError String :=
  if e.isLaunchTemplateNotFound then
    (invalidateLaunchTemplates cache ltNames, .error e)
  else
    (cache, .error e)

/-- The EC2 usage class "spot". -/
def usageClassSpot : String := "spot"

/-- The EC2 usage class "on-demand". -/
def usageClassOnDemand : String := "on-demand"

/-- The slice of `ec2.InstanceTypeInfo` that `createOfferings` reads. -/
structure InstanceTypeInfo where
  instanceType : String
  supportedUsageClasses : List String
deriving DecidableEq

/-- The two price lookups of the pricing provider; `none` when no price is
known. -/
structure PricingProvider where
  spotPrice : String → String → Option ℚ
  onDemandPrice : String → Option ℚ

/-- `Provider.createOfferings` of `pkg/providers/instancetype`: for every zone
and every distinct supported usage class, look up the price (spot per zone,
on-demand per type), skip `capacity-block` and unknown classes, and emit an
offering whose availability is the conjunction of: not recently marked
unavailable, price known, zone offered for the instance type, and zone in the
subnet zone set. `unavailable it zone ct` models the unavailable-offerings
cache lookup `IsUnavailable`. -/
def createOfferings (unavailable : String → String → String → Bool)
    (pricing : PricingProvider) (info : InstanceTypeInfo)
    (instanceTypeZones zones subnetZones : List String) : List Offering :=
  zones.flatMap (fun zone =>
    info.supportedUsageClasses.eraseDups.filterMap (fun capacityType =>
      if capacityType == usageClassSpot || capacityType == usageClassOnDemand then
        let isUnavailable := unavailable info.instanceType zone capacityType
        let priceResult :=
          if capacityType == usageClassSpot then pricing.spotPrice info.instanceType zone
          else pricing.onDemandPrice info.instanceType
        let price := priceResult.getD 0
        let ok := priceResult.isSome
        let available := !isUnavailable && ok && instanceTypeZones.contains zone &&
          subnetZones.contains zone
        some { capacityType := capacityType, zone := zone, price := price,
               available := available }
      else
        none))

/-- A kubelet eviction-signal value as the maps `evictionHard`/`evictionSoft`
carry it, after string parsing: either a percentage or an absolute resource
quantity (in bytes). -/
inductive SignalValue where
  | percent (p : ℚ)
  | quantity (q : ℚ)
deriving DecidableEq

/-- `mustParsePercentage` (after numeric parsing): a value of 100% disables
the threshold and is read as 0. -/
def mustParsePercentage (p : ℚ) : ℚ := if p = 100 then 0 else p

/-- Exact ceiling of a rational, used for Go's `math.Ceil`. -/
def ratCeil (q : ℚ) : ℤ := -((-q.num).fdiv (q.den : ℤ))

/-- `computeEvictionSignal`: a percentage signal resolves against the capacity
(`ceil(capacity / 100 * p)`), an absolute signal is used as is. -/
def computeEvictionSignal (capacity : ℚ) (signalValue : SignalValue) : ℚ :=
  match signalValue with
  | .percent p => (ratCeil (capacity / 100 * mustParsePercentage p) : ℚ)
  | .quantity q => q

/-- The two keys of an eviction-signal map that `evictionThreshold` reads:
`memory.available` and `nodefs.available`. -/
structure SignalMap where
  memoryAvailable : Option SignalValue
  nodefsAvailable : Option SignalValue
deriving DecidableEq

/-- A resource list over the two eviction resources, with both present. -/
structure EvictionResources where
  memory : ℚ
  ephemeralStorage : ℚ
deriving DecidableEq

/-- A partial resource list over the two eviction resources. -/
structure EvictionOverride where
  memory : Option ℚ
  ephemeralStorage : Option ℚ
deriving DecidableEq

/-- Pointwise maximum of optional quantities, the semantics of karpenter-core
`resources.MaxResources` per key (modelled from the spec). -/
def maxOpt (x y : Option ℚ) : Option ℚ :=
  match x, y with
  | some a, some b => some (max a b)
  | some a, none => some a
  | none, some b => some b
  | none, none => none

/-- The list of eviction-signal maps `evictionThreshold` folds over: the hard
map when present, then the soft map when present and enabled by the AMI
family's feature flags. -/
def evictionSignalMaps (evictionSoftEnabled : Bool)
    (evictionHard evictionSoft : Option SignalMap) : List SignalMap :=
  (match evictionHard with
   | some m => [m]
   | none => []) ++
  (match evictionSoft with
   | some m => if evictionSoftEnabled then [m] else []
   | none => [])

/-- `evictionThreshold` of `pkg/providers/instancetype`: a default overhead of
100Mi memory and 10% of the storage capacity, overridden (key by key, via
`lo.Assign`) by the per-key maximum of the present eviction signals. -/
def evictionThreshold (memory storage : ℚ) (evictionSoftEnabled : Bool)
    (evictionHard evictionSoft : Option SignalMap) : EvictionResources :=
  let overhead : EvictionResources :=
    { memory := 104857600, ephemeralStorage := (ratCeil (storage / 100 * 10) : ℚ) }
  let signals := evictionSignalMaps evictionSoftEnabled evictionHard evictionSoft
  let override := signals.foldl
    (fun (override : EvictionOverride) m =>
      let temp : EvictionOverride :=
        { memory := m.memoryAvailable.map (computeEvictionSignal memory),
          ephemeralStorage := m.nodefsAvailable.map (computeEvictionSignal storage) }
      { memory := maxOpt override.memory temp.memory,
        ephemeralStorage := maxOpt override.ephemeralStorage temp.ephemeralStorage })
    { memory := none, ephemeralStorage := none }
  { memory := override.memory.getD overhead.memory,
    ephemeralStorage := override.ephemeralStorage.getD overhead.ephemeralStorage }

/-- The `InstanceStorePolicy` enum of the node-class API (only RAID0 exists). -/
inductive InstanceStorePolicy where
  | RAID0
deriving DecidableEq

/-- The slice of `ec2.InstanceTypeInfo.InstanceStorageInfo` that
`ephemeralStorage` and the NVMe requirement read. -/
structure InstanceStorageInfo where
  totalSizeInGB : Option ℤ
  nvmeSupport : String
deriving DecidableEq

/-- The EBS block of a block-device mapping: its optional volume size, in
bytes. -/
structure BlockDevice where
  volumeSize : Option ℚ
deriving DecidableEq

/-- A block-device mapping of the node class. -/
structure BlockDeviceMapping where
  deviceName : Option String
  ebs : BlockDevice
  rootVolume : Bool
deriving DecidableEq

/-- The slice of the AMI-family variant that `ephemeralStorage` reads: whether
it is the Custom family, its declared ephemeral block-device name, and its
default block-device mappings. -/
structure AMIFamilyStorage where
  isCustom : Bool
  ephemeralBlockDevice : Option String
  defaultBlockDeviceMappings : List BlockDeviceMapping
deriving DecidableEq

/-- Modelled from the spec: `amifamily.DefaultEBS.VolumeSize` is the 20Gi
system default (in bytes). -/
def defaultEBSVolumeSize : ℚ := 21474836480

/-- The Go pointer comparison `*bdm.DeviceName == *family.EphemeralBlockDevice()`
(no match when either side is absent). -/
def bdmDeviceMatches (bdm : BlockDeviceMapping) (dev : Option String) : Bool :=
  match bdm.deviceName, dev with
  | some a, some b => a == b
  | _, _ => false

/-- The fall-through tail of `ephemeralStorage` (lines 257-263): the size of
the family's default block-device mapping for its ephemeral device, else the
system default. `none` models the Go function returning a nil quantity
pointer. -/
def ephemeralStorageDefaults (family : AMIFamilyStorage) : Option ℚ :=
  match family.defaultBlockDeviceMappings.find?
      (fun item => bdmDeviceMatches item family.ephemeralBlockDevice) with
  | some item => item.ebs.volumeSize
  | none => some defaultEBSVolumeSize

/-- The `switch amiFamily.(type)` of `ephemeralStorage` (lines 243-255),
reached when the mappings are non-empty and the first root-volume mapping (if
any) carries no size: Custom uses the last mapping's size or the system
default; other families use the mapping matching the family's ephemeral
device name when it has a size, else fall through to the defaults. -/
def ephemeralStorageFamilySwitch (family : AMIFamilyStorage)
    (blockDeviceMappings : List BlockDeviceMapping) : Option ℚ :=
  if family.isCustom then
    match blockDeviceMappings.getLast? with
    | some last =>
      match last.ebs.volumeSize with
      | some v => some v
      | none => some defaultEBSVolumeSize
    | none => some defaultEBSVolumeSize
  else
    match blockDeviceMappings.find?
        (fun bdm => bdmDeviceMatches bdm family.ephemeralBlockDevice) with
    | some bdm =>
      match bdm.ebs.volumeSize with
      | some v => some v
      | none => ephemeralStorageDefaults family
    | none => ephemeralStorageDefaults family

/-- The block-device-mappings stage of `ephemeralStorage` (lines 236-256): if
mappings exist, a first root-volume mapping with a size wins, else the family
switch; with no mappings, the defaults. -/
def ephemeralStorageMappings (family : AMIFamilyStorage)
    (blockDeviceMappings : List BlockDeviceMapping) : Option ℚ :=
  if blockDeviceMappings.isEmpty then
    ephemeralStorageDefaults family
  else
    match blockDeviceMappings.find? (·.rootVolume) with
    | some bdm =>
      match bdm.ebs.volumeSize with
      | some v => some v
      | none => ephemeralStorageFamilySwitch family blockDeviceMappings
    | none => ephemeralStorageFamilySwitch family blockDeviceMappings

/-- `ephemeralStorage` of `pkg/providers/instancetype`: under the RAID0
instance-store policy, an advertised instance-storage total size (decimal
gigabytes) wins; otherwise the block-device-mappings stage decides. -/
def ephemeralStorage (storageInfo : Option InstanceStorageInfo)
    (family : AMIFamilyStorage) (blockDeviceMappings : List BlockDeviceMapping)
    (instanceStorePolicy : Option InstanceStorePolicy) : Option ℚ :=
  if instanceStorePolicy = some InstanceStorePolicy.RAID0 then
    match storageInfo with
    | some si =>
      match si.totalSizeInGB with
      | some n => some ((n : ℚ) * 1000000000)
      | none => ephemeralStorageMappings family blockDeviceMappings
    | none => ephemeralStorageMappings family blockDeviceMappings
  else
    ephemeralStorageMappings family blockDeviceMappings

/-- A `reconcile.Result` of the controller runtime: the requeue flag and the
requeue delay (in nanoseconds, as Go's `time.Duration`). -/
structure ReconcileResult where
  requeue : Bool
  requeueAfter : ℕ
deriving DecidableEq

/-- Modelled from the spec: `result.Min` of the karpenter core utilities
returns the minimum requeue of the individual results (the smallest non-zero
requeue delay; the requeue flags or-ed). -/
def resultMin (results : List ReconcileResult) : ReconcileResult :=
  results.foldl
    (fun acc r =>
      { requeue := acc.requeue || r.requeue,
        requeueAfter :=
          if r.requeueAfter = 0 then acc.requeueAfter
          else if acc.requeueAfter = 0 || r.requeueAfter < acc.requeueAfter then
            r.requeueAfter
          else acc.requeueAfter })
    { requeue := false, requeueAfter := 0 }

/-- One resolver's outcome inside the node-class status reconcile: its
`reconcile.Result` and its (possibly empty) list of errors (`multierr` is
modelled as error-list concatenation; an empty list is the nil error). -/
structure ResolverOutcome where
  result : ReconcileResult
  errs : List String
deriving DecidableEq

/-- The resolver loop and return of `Controller.Reconcile` of the node-class
status package (lines 81-104): the five resolvers run in the fixed order AMI,
subnet, security-group, instance-profile, readiness, all of them even when an
earlier one errs; their errors (plus any status-patch error) accumulate; with
a non-empty error union the zero result is returned with it, otherwise the
minimum requeue of the collected results. -/
def nodeClassStatusReconcile (ami subnet securitygroup instanceprofile readiness :
    ResolverOutcome) (patchErrs : List String) : ReconcileResult × List String :=
  let reconcilers := [ami, subnet, securitygroup, instanceprofile, readiness]
  let step := reconcilers.foldl
    (fun (acc : List ReconcileResult × List String) r =>
      (acc.1 ++ [r.result], acc.2 ++ r.errs))
    ([], [])
  let errs := step.2 ++ patchErrs
  if errs.isEmpty then
    (resultMin step.1, [])
  else
    ({ requeue := false, requeueAfter := 0 }, errs)

/-! ### Helper lemmas -/

/-- Membership after invalidation: an entry survives exactly when it was in the
cache and is none of the invalidated names. -/
theorem mem_invalidateLaunchTemplates (cache ltNames : List String) (x : String) :
    x ∈ invalidateLaunchTemplates cache ltNames ↔ x ∈ cache ∧ x ∉ ltNames := by
  induction ltNames generalizing cache with
  | nil => simp [invalidateLaunchTemplates]
  | cons n ns ih =>
    show x ∈ invalidateLaunchTemplates (cache.filter (fun e => !(e == n))) ns ↔ _
    rw [ih]
    simp only [List.mem_filter, List.mem_cons, Bool.not_eq_eq_eq_not, Bool.not_true,
      beq_eq_false_iff_ne, ne_eq]
    constructor
    · rintro ⟨⟨hc, hn⟩, hns⟩
      exact ⟨hc, by rintro (h | h) <;> [exact hn h; exact hns h]⟩
    · rintro ⟨hc, hall⟩
      exact ⟨⟨hc, fun h => hall (Or.inl h)⟩, fun h => hall (Or.inr h)⟩

/-! ### Claim theorems -/

/-- C1: for a CreateFleet call that returns zero instances, `launchInstance`
returns the combination of the per-offering fleet errors, and the combined
error is wrapped as the dedicated InsufficientCapacity error if and only if
every per-offering fleet error is classified as an ICE error. -/
theorem combineFleetErrors_insufficientCapacity_iff (isICE : CreateFleetError → Bool)
    (out : CreateFleetOutput) (h : out.instances = []) :
    launchInstanceFleetResult isICE out = .error (combineFleetErrors isICE out.errors) ∧
    ((combineFleetErrors isICE out.errors).insufficientCapacity = true ↔
      ∀ e ∈ out.errors, isICE e = true) := by
  constructor
  · simp [launchInstanceFleetResult, h]
  · simp [combineFleetErrors, List.countP_eq_length]

/-- Concrete classifier for the C1 witness: code-based ICE classification. -/
def c1Classifier (e : CreateFleetError) : Bool :=
  e.errorCode == some "InsufficientInstanceCapacity"

/-- Concrete fleet response for the C1 witness: no instance, one ICE error and
one other error. -/
def c1Output : CreateFleetOutput :=
  { instances := [],
    errors := [{ errorCode := some "InsufficientInstanceCapacity",
                 errorMessage := some "ice" },
               { errorCode := some "UnauthorizedOperation",
                 errorMessage := some "denied" }] }

/-- Witness for C1 at a concrete fleet response. -/
theorem combineFleetErrors_insufficientCapacity_iff_witness :
    c1Output.instances = [] ∧
    (launchInstanceFleetResult c1Classifier c1Output =
      .error (combineFleetErrors c1Classifier c1Output.errors) ∧
     ((combineFleetErrors c1Classifier c1Output.errors).insufficientCapacity = true ↔
       ∀ e ∈ c1Output.errors, c1Classifier e = true)) :=
  ⟨rfl, combineFleetErrors_insufficientCapacity_iff c1Classifier c1Output rfl⟩

/-- C10: a fleet response with zero instances and an empty per-offering error
list is reported as the dedicated InsufficientCapacity error (with no
messages), whatever the ICE classifier: the all-errors-are-ICE check holds
vacuously over the empty list. -/
theorem emptyFleetResponse_insufficientCapacity (isICE : CreateFleetError → Bool)
    (out : CreateFleetOutput) (h1 : out.instances = []) (h2 : out.errors = []) :
    launchInstanceFleetResult isICE out =
      .error { messages := [], insufficientCapacity := true } := by
  simp only [launchInstanceFleetResult, h1, h2, combineFleetErrors]
  rfl

/-- Concrete classifier for the C10 witness: nothing is classified as ICE,
yet the empty response is still wrapped. -/
def c10Classifier (_ : CreateFleetError) : Bool := false

/-- Concrete empty fleet response for the C10 witness. -/
def c10Output : CreateFleetOutput := { instances := [], errors := [] }

/-- Witness for C10 at the empty fleet response. -/
theorem emptyFleetResponse_insufficientCapacity_witness :
    c10Output.instances = [] ∧ c10Output.errors = [] ∧
    launchInstanceFleetResult c10Classifier c10Output =
      .error { messages := [], insufficientCapacity := true } :=
  ⟨rfl, rfl, emptyFleetResponse_insufficientCapacity c10Classifier c10Output rfl rfl⟩

/-- C2: a first launch failure with a launch-template-not-found error makes
`Create` retry exactly once (the second outcome is returned as is, success or
failure); any other first outcome is returned without a retry; `Create` never
consults a third attempt; and inside `launchInstance` a
launch-template-not-found fleet error invalidates every affected template in
the launch-template cache while any other error leaves the cache untouched. -/
theorem create_launchTemplateNotFound_retry (attempts : ℕ → Except LaunchError String)
    (e : LaunchError) (cache ltNames : List String) :
    (attempts 0 = .error e → e.isLaunchTemplateNotFound = true →
      createLaunch attempts = attempts 1) ∧
    (attempts 0 = .error e → e.isLaunchTemplateNotFound = false →
      createLaunch attempts = .error e) ∧
    (∀ id, attempts 0 = .ok id → createLaunch attempts = .ok id) ∧
    (∀ attempts2 : ℕ → Except LaunchError String, attempts2 0 = attempts 0 →
      attempts2 1 = attempts 1 → createLaunch attempts2 = createLaunch attempts) ∧
    (e.isLaunchTemplateNotFound = true →
      launchInstanceFleetErrorStep cache ltNames e =
        (invalidateLaunchTemplates cache ltNames, .error e) ∧
      ∀ n ∈ ltNames, n ∉ (launchInstanceFleetErrorStep cache ltNames e).1) ∧
    (e.isLaunchTemplateNotFound = false →
      launchInstanceFleetErrorStep cache ltNames e = (cache, .error e)) := by
  refine ⟨?_, ?_, ?_, ?_, ?_, ?_⟩
  · intro h0 hlt
    simp [createLaunch, h0, hlt]
  · intro h0 hlt
    simp [createLaunch, h0, hlt]
  · intro id h0
    simp [createLaunch, h0]
  · intro attempts2 h0 h1
    unfold createLaunch
    rw [h0, h1]
  · intro hlt
    refine ⟨by simp [launchInstanceFleetErrorStep, hlt], ?_⟩
    intro n hn
    simp only [launchInstanceFleetErrorStep, hlt, if_true]
    rw [mem_invalidateLaunchTemplates]
    exact fun hmem => hmem.2 hn
  · intro hlt
    simp [launchInstanceFleetErrorStep, hlt]

/-- Concrete launch-template-not-found error for the C2 witness. -/
def c2LtError : LaunchError :=
  { isLaunchTemplateNotFound := true, code := "InvalidLaunchTemplateName.NotFoundException" }

/-- Concrete non-template error for the C2 witness. -/
def c2OtherError : LaunchError :=
  { isLaunchTemplateNotFound := false, code := "UnfulfillableCapacity" }

/-- Concrete attempt sequence for the C2 witness: the first launch fails with
launch-template-not-found, the second fails with a different error. -/
def c2Attempts : ℕ → Except LaunchError String
  | 0 => .error c2LtError
  | _ => .error c2OtherError

/-- Concrete attempt sequence whose first launch fails with a non-template
error. -/
def c2AttemptsOther : ℕ → Except LaunchError String
  | 0 => .error c2OtherError
  | _ => .ok "i-123"

/-- Witness for C2 at concrete attempt sequences and a concrete cache. -/
theorem create_launchTemplateNotFound_retry_witness :
    createLaunch c2Attempts = c2Attempts 1 ∧
    createLaunch c2AttemptsOther = .error c2OtherError ∧
    launchInstanceFleetErrorStep ["lt-a", "lt-b"] ["lt-a"] c2LtError =
      (invalidateLaunchTemplates ["lt-a", "lt-b"] ["lt-a"], .error c2LtError) ∧
    launchInstanceFleetErrorStep ["lt-a", "lt-b"] ["lt-a"] c2OtherError =
      (["lt-a", "lt-b"], .error c2OtherError) :=
  ⟨(create_launchTemplateNotFound_retry c2Attempts c2LtError [] []).1 rfl rfl,
   (create_launchTemplateNotFound_retry c2AttemptsOther c2OtherError [] []).2.1 rfl rfl,
   ((create_launchTemplateNotFound_retry c2Attempts c2LtError ["lt-a", "lt-b"]
      ["lt-a"]).2.2.2.2.1 rfl).1,
   (create_launchTemplateNotFound_retry c2Attempts c2OtherError ["lt-a", "lt-b"]
      ["lt-a"]).2.2.2.2.2 rfl⟩

/-- C4: the selected capacity type is spot exactly when the requirements admit
spot and some candidate instance type has an available spot offering in an
admitted zone; in every other case it is on-demand. -/
theorem getCapacityType_spot_iff (reqs : Requirements) (its : List InstanceType) :
    (getCapacityType reqs its = capacityTypeSpot ↔
      (reqs.ctHas capacityTypeSpot = true ∧
        ∃ it ∈ its, ∃ o ∈ availableOfferings it.offerings,
          reqs.zoneHas o.zone = true ∧ o.capacityType = capacityTypeSpot)) ∧
    (getCapacityType reqs its = capacityTypeOnDemand ↔
      ¬(reqs.ctHas capacityTypeSpot = true ∧
        ∃ it ∈ its, ∃ o ∈ availableOfferings it.offerings,
          reqs.zoneHas o.zone = true ∧ o.capacityType = capacityTypeSpot)) := by
  have hne : capacityTypeSpot ≠ capacityTypeOnDemand := by decide
  have hcond : (reqs.ctHas capacityTypeSpot &&
      its.any (fun it =>
        (availableOfferings it.offerings).any (fun o =>
          reqs.zoneHas o.zone && o.capacityType == capacityTypeSpot))) = true ↔
      (reqs.ctHas capacityTypeSpot = true ∧
        ∃ it ∈ its, ∃ o ∈ availableOfferings it.offerings,
          reqs.zoneHas o.zone = true ∧ o.capacityType = capacityTypeSpot) := by
    simp [List.any_eq_true]
  unfold getCapacityType
  by_cases h : (reqs.ctHas capacityTypeSpot &&
      its.any (fun it =>
        (availableOfferings it.offerings).any (fun o =>
          reqs.zoneHas o.zone && o.capacityType == capacityTypeSpot))) = true
  · simp only [h, if_true]
    exact ⟨by simp [hcond.mp h], by simp [hne, hcond.mp h]⟩
  · simp only [h, if_false]
    exact ⟨by simp [Ne.symm hne, (not_iff_not.mpr hcond).mp h],
           by simp [(not_iff_not.mpr hcond).mp h]⟩

/-- Concrete AMI-resolver outcome for the C9 counterexample: requeue after 300
(five minutes, in seconds), no error. -/
def c9Ami : ResolverOutcome := { result := { requeue := false, requeueAfter := 300 }, errs := [] }

/-- Concrete subnet-resolver outcome for the C9 counterexample: it fails. -/
def c9Subnet : ResolverOutcome :=
  { result := { requeue := false, requeueAfter := 0 }, errs := ["subnets failed"] }

/-- Concrete security-group-resolver outcome for the C9 counterexample. -/
def c9Sg : ResolverOutcome := { result := { requeue := false, requeueAfter := 600 }, errs := [] }

/-- Concrete instance-profile-resolver outcome for the C9 counterexample. -/
def c9Ip : ResolverOutcome := { result := { requeue := false, requeueAfter := 0 }, errs := [] }

/-- Concrete readiness-resolver outcome for the C9 counterexample. -/
def c9Ready : ResolverOutcome := { result := { requeue := false, requeueAfter := 0 }, errs := [] }

/-- C9 counterexample: when a resolver errs, the reconcile returns the error
union together with the zero result, not with the minimum requeue delay of the
individual resolver results (which here is 300). -/
theorem nodeClassReconcile_zero_result_on_error :
    nodeClassStatusReconcile c9Ami c9Subnet c9Sg c9Ip c9Ready [] =
      ({ requeue := false, requeueAfter := 0 }, ["subnets failed"]) ∧
    resultMin [c9Ami.result, c9Subnet.result, c9Sg.result, c9Ip.result, c9Ready.result] =
      { requeue := false, requeueAfter := 300 } ∧
    ({ requeue := false, requeueAfter := 0 } : ReconcileResult) ≠
      { requeue := false, requeueAfter := 300 } := by
  decide

/-- C9 as amended: all five resolvers are consumed in their fixed order and
their errors are accumulated and returned together as a union; when the union
is empty the reconcile returns the minimum requeue of the collected results,
and when it is non-empty the union is returned with the zero reconcile
result. -/
theorem nodeClassReconcile_accumulation (a b c d e : ResolverOutcome)
    (patchErrs : List String) :
    (a.errs ++ b.errs ++ c.errs ++ d.errs ++ e.errs ++ patchErrs = [] →
      nodeClassStatusReconcile a b c d e patchErrs =
        (resultMin [a.result, b.result, c.result, d.result, e.result], [])) ∧
    (a.errs ++ b.errs ++ c.errs ++ d.errs ++ e.errs ++ patchErrs ≠ [] →
      nodeClassStatusReconcile a b c d e patchErrs =
        ({ requeue := false, requeueAfter := 0 },
          a.errs ++ b.errs ++ c.errs ++ d.errs ++ e.errs ++ patchErrs)) := by
  have hstep : nodeClassStatusReconcile a b c d e patchErrs =
      (if (a.errs ++ b.errs ++ c.errs ++ d.errs ++ e.errs ++ patchErrs).isEmpty then
        (resultMin [a.result, b.result, c.result, d.result, e.result], [])
      else
        ({ requeue := false, requeueAfter := 0 },
          a.errs ++ b.errs ++ c.errs ++ d.errs ++ e.errs ++ patchErrs)) := by
    simp [nodeClassStatusReconcile, List.append_assoc]
  constructor
  · intro h
    rw [hstep, h]
    rfl
  · intro h
    rw [hstep, if_neg (by simpa [List.isEmpty_iff] using h)]

/-- Concrete erring outcome for the C9 witness. -/
def c9WErr : ResolverOutcome :=
  { result := { requeue := false, requeueAfter := 0 }, errs := ["boom"] }

/-- Witness for the amended C9 at concrete resolver outcomes: one run with no
errors returns the minimum requeue, one run with an error returns the union
with the zero result. -/
theorem nodeClassReconcile_accumulation_witness :
    nodeClassStatusReconcile c9Ami c9Sg c9Ip c9Ready c9Ready [] =
      (resultMin [c9Ami.result, c9Sg.result, c9Ip.result, c9Ready.result, c9Ready.result],
        []) ∧
    nodeClassStatusReconcile c9Ami c9WErr c9Sg c9Ip c9Ready [] =
      ({ requeue := false, requeueAfter := 0 },
        c9Ami.errs ++ c9WErr.errs ++ c9Sg.errs ++ c9Ip.errs ++ c9Ready.errs ++ []) :=
  ⟨(nodeClassReconcile_accumulation c9Ami c9Sg c9Ip c9Ready c9Ready []).1 (by decide),
   (nodeClassReconcile_accumulation c9Ami c9WErr c9Sg c9Ip c9Ready []).2 (by decide)⟩

/-- Any element of `eraseDups.loop as bs` came from `as` or from the
accumulator `bs`. -/
theorem mem_eraseDups_loop (as bs : List String) (x : String)
    (h : x ∈ List.eraseDups.loop as bs) : x ∈ as ∨ x ∈ bs := by
  induction as generalizing bs with
  | nil =>
    right
    simpa [List.eraseDups.loop] using h
  | cons a as ih =>
    rw [List.eraseDups.loop] at h
    cases helem : bs.elem a with
    | true =>
      rw [helem] at h
      rcases ih bs h with h1 | h1
      · exact Or.inl (List.mem_cons_of_mem a h1)
      · exact Or.inr h1
    | false =>
      rw [helem] at h
      rcases ih (a :: bs) h with h1 | h1
      · exact Or.inl (List.mem_cons_of_mem a h1)
      · rcases List.mem_cons.mp h1 with h2 | h2
        · exact Or.inl (List.mem_cons.mpr (Or.inl h2))
        · exact Or.inr h2

/-- Any element of `l.eraseDups` is an element of `l`. -/
theorem mem_of_mem_eraseDups (l : List String) (x : String) (h : x ∈ l.eraseDups) :
    x ∈ l := by
  rcases mem_eraseDups_loop l [] x h with h1 | h1
  · exact h1
  · cases h1

/-- C6: an offering constructed by `createOfferings` is available exactly when
its price lookup succeeded, its capacity class is among the instance type's
supported usage classes, its zone is both offered for the type and present in
the node class's subnet zone set, and its triple is not in the
unavailable-offerings cache; consequently (when the pricing catalog only
yields non-negative prices) every available offering has a known non-negative
price and is not in the unavailable cache. -/
theorem createOfferings_available_iff (unavailable : String → String → String → Bool)
    (pricing : PricingProvider) (info : InstanceTypeInfo)
    (instanceTypeZones zones subnetZones : List String)
    (hspot : ∀ it z p, pricing.spotPrice it z = some p → 0 ≤ p)
    (hod : ∀ it p, pricing.onDemandPrice it = some p → 0 ≤ p) :
    ∀ o ∈ createOfferings unavailable pricing info instanceTypeZones zones subnetZones,
      (o.available = true ↔
        ((if o.capacityType = usageClassSpot then
            pricing.spotPrice info.instanceType o.zone
          else pricing.onDemandPrice info.instanceType).isSome = true ∧
         o.capacityType ∈ info.supportedUsageClasses ∧
         o.zone ∈ instanceTypeZones ∧ o.zone ∈ subnetZones ∧
         unavailable info.instanceType o.zone o.capacityType = false)) ∧
      (o.available = true →
        0 ≤ o.price ∧ unavailable info.instanceType o.zone o.capacityType = false) := by
  intro o ho
  simp only [createOfferings, List.mem_flatMap, List.mem_filterMap] at ho
  obtain ⟨zone, hz, ct, hct, hsome⟩ := ho
  by_cases hcls : (ct == usageClassSpot || ct == usageClassOnDemand) = true
  swap
  · rw [if_neg (by simpa using hcls)] at hsome
    cases hsome
  rw [if_pos hcls] at hsome
  have hctmem : ct ∈ info.supportedUsageClasses := mem_of_mem_eraseDups _ ct hct
  obtain rfl := Option.some.inj hsome
  by_cases hs : ct = usageClassSpot
  · subst hs
    refine ⟨?_, ?_⟩
    · simp [hctmem, and_assoc]
      tauto
    · intro hav
      simp only [Bool.and_eq_true, Bool.not_eq_true'] at hav
      obtain ⟨⟨⟨hunav, hok⟩, -⟩, -⟩ := hav
      simp only [if_pos rfl] at hok ⊢
      refine ⟨?_, hunav⟩
      obtain ⟨p, hp⟩ := Option.isSome_iff_exists.mp (by simpa using hok)
      simpa [hp] using hspot info.instanceType zone p hp
  · have hbeq : (usageClassSpot == usageClassSpot) = true := by decide
    have hctod : ct = usageClassOnDemand := by
      rcases (Bool.or_eq_true _ _).mp hcls with h1 | h1
      · exact absurd (by simpa using h1) hs
      · simpa using h1
    subst hctod
    refine ⟨?_, ?_⟩
    · simp [hctmem, hs, and_assoc]
      tauto
    · intro hav
      simp only [Bool.and_eq_true, Bool.not_eq_true'] at hav
      obtain ⟨⟨⟨hunav, hok⟩, -⟩, -⟩ := hav
      rw [if_neg (by simpa using hs)] at hok ⊢
      refine ⟨?_, hunav⟩
      obtain ⟨p, hp⟩ := Option.isSome_iff_exists.mp (by simpa [hs] using hok)
      simpa [hp, hs] using hod info.instanceType p hp

/-- Concrete pricing catalog for the C6 witness. -/
def c6Pricing : PricingProvider :=
  { spotPrice := fun _ z => if z == "us-east-1a" then some 1 else none,
    onDemandPrice := fun _ => some 2 }

/-- Concrete instance-type info for the C6 witness (including the skipped
`capacity-block` usage class). -/
def c6Info : InstanceTypeInfo :=
  { instanceType := "m5.large",
    supportedUsageClasses := ["spot", "on-demand", "capacity-block"] }

/-- Concrete unavailable-offerings cache lookup for the C6 witness: one spot
triple is marked unavailable. -/
def c6Unavailable : String → String → String → Bool := fun _ z ct =>
  z == "us-east-1b" && ct == "spot"

/-- Witness for C6 at a concrete catalog state. -/
theorem createOfferings_available_iff_witness :
    (∀ it z p, c6Pricing.spotPrice it z = some p → 0 ≤ p) ∧
    (∀ it p, c6Pricing.onDemandPrice it = some p → 0 ≤ p) ∧
    (∀ o ∈ createOfferings c6Unavailable c6Pricing c6Info ["us-east-1a"]
        ["us-east-1a", "us-east-1b"] ["us-east-1a"],
      (o.available = true ↔
        ((if o.capacityType = usageClassSpot then
            c6Pricing.spotPrice c6Info.instanceType o.zone
          else c6Pricing.onDemandPrice c6Info.instanceType).isSome = true ∧
         o.capacityType ∈ c6Info.supportedUsageClasses ∧
         o.zone ∈ ["us-east-1a"] ∧ o.zone ∈ ["us-east-1a"] ∧
         c6Unavailable c6Info.instanceType o.zone o.capacityType = false)) ∧
      (o.available = true →
        0 ≤ o.price ∧ c6Unavailable c6Info.instanceType o.zone o.capacityType = false)) := by
  have hsp : ∀ it z p, c6Pricing.spotPrice it z = some p → 0 ≤ p := by
    intro it z p hp
    simp only [c6Pricing] at hp
    split at hp
    · obtain rfl := Option.some.inj hp
      decide
    · cases hp
  have hodp : ∀ it p, c6Pricing.onDemandPrice it = some p → 0 ≤ p := by
    intro it p hp
    obtain rfl := Option.some.inj hp
    decide
  exact ⟨hsp, hodp,
    createOfferings_available_iff c6Unavailable c6Pricing c6Info ["us-east-1a"]
      ["us-east-1a", "us-east-1b"] ["us-east-1a"] hsp hodp⟩

/-- Concrete hard eviction map for the C7 counterexample: a
`memory.available` signal of 50Mi, below the claimed 100Mi floor. -/
def c7Hard : SignalMap :=
  { memoryAvailable := some (.quantity 52428800), nodefsAvailable := none }

/-- C7 counterexample: with `evictionHard` carrying `memory.available = 50Mi`,
the computed eviction-threshold memory is 50Mi, not the claimed
`max(100Mi, 50Mi) = 100Mi`: a present signal overrides the 100Mi default
instead of being maxed with it. -/
theorem evictionThreshold_signal_overrides_default :
    (evictionThreshold 8000000000 20000000000 false (some c7Hard) none).memory =
      52428800 ∧
    max (104857600 : ℚ) 52428800 = 104857600 ∧
    (52428800 : ℚ) ≠ 104857600 := by
  decide

/-- C7 as amended: the eviction-threshold memory is the maximum of the
resolved `memory.available` signals from `evictionHard` and (only when the AMI
family enables soft eviction) `evictionSoft`, with 100Mi as the default when
no signal is present (not maxed against present signals); the
`nodefs.available` threshold is analogous over the ephemeral-storage capacity
with a default of 10% of capacity; percentage signals resolve against the
capacity via `computeEvictionSignal`. -/
theorem evictionThreshold_signal_max (mem sto : ℚ) (softEnabled : Bool)
    (hard soft : Option SignalMap) :
    (evictionThreshold mem sto softEnabled hard soft).memory =
      (match ((evictionSignalMaps softEnabled hard soft).filterMap
          (·.memoryAvailable)).map (computeEvictionSignal mem) with
       | [] => 104857600
       | x :: xs => xs.foldl max x) ∧
    (evictionThreshold mem sto softEnabled hard soft).ephemeralStorage =
      (match ((evictionSignalMaps softEnabled hard soft).filterMap
          (·.nodefsAvailable)).map (computeEvictionSignal sto) with
       | [] => (ratCeil (sto / 100 * 10) : ℚ)
       | x :: xs => xs.foldl max x) := by
  rcases hard with _ | ⟨hm, hn⟩ <;> rcases soft with _ | ⟨sm, sn⟩ <;>
    cases softEnabled <;>
    (try rcases hm with _ | hmv) <;> (try rcases hn with _ | hnv) <;>
    (try rcases sm with _ | smv) <;> (try rcases sn with _ | snv) <;>
    refine ⟨?_, ?_⟩ <;>
    simp [evictionThreshold, evictionSignalMaps, maxOpt]

/-- The claim's RAID0 guard: the instance type "has NVMe instance storage"
(instance-storage info present, NVMe support not `unsupported`, and a total
size reported). -/
def hasNVMeInstanceStore (si : Option InstanceStorageInfo) : Bool :=
  match si with
  | some i => !(i.nvmeSupport == "unsupported") && i.totalSizeInGB.isSome
  | none => false

/-- The amended RAID0 guard: the instance type reports an instance-storage
total size. -/
def hasInstanceStoreSize (si : Option InstanceStorageInfo) : Bool :=
  match si with
  | some i => i.totalSizeInGB.isSome
  | none => false

/-- The instance-storage total size in bytes (decimal gigabytes). -/
def instanceStoreTotalSize (si : Option InstanceStorageInfo) : Option ℚ :=
  match si with
  | some i => i.totalSizeInGB.map (fun n => (n : ℚ) * 1000000000)
  | none => none

/-- The non-RAID0 precedence chain as the claim words it: a root-volume
mapping carrying a size; else, for Custom with mappings, the last mapping's
size (default when absent); else the mapping matching the family's ephemeral
device name; else the family's default; else the system default. -/
def ephemeralStorageSpecChain (family : AMIFamilyStorage)
    (blockDeviceMappings : List BlockDeviceMapping) : Option ℚ :=
  match blockDeviceMappings.find? (fun b => b.rootVolume && b.ebs.volumeSize.isSome) with
  | some bdm => bdm.ebs.volumeSize
  | none =>
    if family.isCustom && !blockDeviceMappings.isEmpty then
      match blockDeviceMappings.getLast? with
      | some last =>
        match last.ebs.volumeSize with
        | some v => some v
        | none => some defaultEBSVolumeSize
      | none => some defaultEBSVolumeSize
    else
      match blockDeviceMappings.find?
          (fun bdm => bdmDeviceMatches bdm family.ephemeralBlockDevice) with
      | some bdm =>
        match bdm.ebs.volumeSize with
        | some v => some v
        | none => ephemeralStorageDefaults family
      | none => ephemeralStorageDefaults family

/-- The ephemeral-storage precedence exactly as the claim states it: the RAID0
rule fires only when the type has NVMe instance storage. -/
def ephemeralStorageClaimC8 (storageInfo : Option InstanceStorageInfo)
    (family : AMIFamilyStorage) (blockDeviceMappings : List BlockDeviceMapping)
    (instanceStorePolicy : Option InstanceStorePolicy) : Option ℚ :=
  if instanceStorePolicy = some InstanceStorePolicy.RAID0 &&
      hasNVMeInstanceStore storageInfo then
    instanceStoreTotalSize storageInfo
  else
    ephemeralStorageSpecChain family blockDeviceMappings

/-- The precedence as amended: the RAID0 rule fires whenever an
instance-storage total size is reported, NVMe or not. -/
def ephemeralStorageAmendedC8 (storageInfo : Option InstanceStorageInfo)
    (family : AMIFamilyStorage) (blockDeviceMappings : List BlockDeviceMapping)
    (instanceStorePolicy : Option InstanceStorePolicy) : Option ℚ :=
  if instanceStorePolicy = some InstanceStorePolicy.RAID0 &&
      hasInstanceStoreSize storageInfo then
    instanceStoreTotalSize storageInfo
  else
    ephemeralStorageSpecChain family blockDeviceMappings

/-- Concrete instance-storage info for the C8 counterexample: 100 GB of
non-NVMe (HDD) instance storage. -/
def c8StorageInfo : InstanceStorageInfo :=
  { totalSizeInGB := some 100, nvmeSupport := "unsupported" }

/-- Concrete AMI family for the C8 counterexample: a standard family whose
declared ephemeral device has a 30Gi default mapping. -/
def c8Family : AMIFamilyStorage :=
  { isCustom := false,
    ephemeralBlockDevice := some "/dev/xvda",
    defaultBlockDeviceMappings :=
      [{ deviceName := some "/dev/xvda", ebs := { volumeSize := some 32212254720 },
         rootVolume := false }] }

/-- C8 counterexample: under the RAID0 policy on a type with non-NVMe instance
storage, the code uses the instance-storage total size (100 GB), while the
claimed precedence skips the RAID0 rule (no NVMe storage) and lands on the
family default (30Gi). -/
theorem ephemeralStorage_nonNvme_raid0 :
    ephemeralStorage (some c8StorageInfo) c8Family [] (some InstanceStorePolicy.RAID0) =
      some 100000000000 ∧
    ephemeralStorageClaimC8 (some c8StorageInfo) c8Family []
      (some InstanceStorePolicy.RAID0) = some 32212254720 ∧
    ephemeralStorage (some c8StorageInfo) c8Family [] (some InstanceStorePolicy.RAID0) ≠
      ephemeralStorageClaimC8 (some c8StorageInfo) c8Family []
        (some InstanceStorePolicy.RAID0) := by
  refine ⟨by decide, by decide, ?_⟩
  intro h
  rw [show ephemeralStorage (some c8StorageInfo) c8Family []
        (some InstanceStorePolicy.RAID0) = some 100000000000 from by decide,
      show ephemeralStorageClaimC8 (some c8StorageInfo) c8Family []
        (some InstanceStorePolicy.RAID0) = some 32212254720 from by decide] at h
  exact absurd (Option.some.inj h) (by decide)

/-- With at most one root-volume mapping, the search for a sized root-volume
mapping agrees with the code's search for the first root-volume mapping
followed by its size check. -/
theorem find?_root_size_of_count_le_one (bdms : List BlockDeviceMapping)
    (h : bdms.countP (·.rootVolume) ≤ 1) :
    bdms.find? (fun b => b.rootVolume && b.ebs.volumeSize.isSome) =
      (bdms.find? (·.rootVolume)).bind
        (fun b => if b.ebs.volumeSize.isSome then some b else none) := by
  induction bdms with
  | nil => rfl
  | cons x xs ih =>
    by_cases hx : x.rootVolume = true
    · have hcount : xs.countP (·.rootVolume) = 0 := by
        rw [List.countP_cons, if_pos (by simpa using hx)] at h
        omega
      have hnone : xs.find? (fun b => b.rootVolume && b.ebs.volumeSize.isSome) = none := by
        rw [List.find?_eq_none]
        intro b hb
        have hnotroot := List.countP_eq_zero.mp hcount b hb
        simp only [Bool.and_eq_true, not_and]
        intro hroot
        exact absurd hroot (by simpa using hnotroot)
      by_cases hs : x.ebs.volumeSize.isSome = true
      · rw [List.find?_cons_of_pos _ (by simp [hx, hs]),
          List.find?_cons_of_pos _ (by simpa using hx)]
        simp [hs]
      · rw [List.find?_cons_of_neg _ (by simp [hx, hs]),
          List.find?_cons_of_pos _ (by simpa using hx), hnone]
        simp [hs]
    · have h' : xs.countP (·.rootVolume) ≤ 1 := by
        rw [List.countP_cons, if_neg (by simpa using hx)] at h
        omega
      rw [List.find?_cons_of_neg _ (by simp [hx]),
        List.find?_cons_of_neg _ (by simpa using hx)]
      exact ih h'

/-- The source's family switch equals the spec chain's tail when the mappings
are non-empty. -/
theorem familySwitch_eq_chain_tail (family : AMIFamilyStorage)
    (bdms : List BlockDeviceMapping) (hb : bdms.isEmpty = false) :
    ephemeralStorageFamilySwitch family bdms =
      (if family.isCustom && !bdms.isEmpty then
        match bdms.getLast? with
        | some last =>
          match last.ebs.volumeSize with
          | some v => some v
          | none => some defaultEBSVolumeSize
        | none => some defaultEBSVolumeSize
      else
        match bdms.find? (fun bdm => bdmDeviceMatches bdm family.ephemeralBlockDevice) with
        | some bdm =>
          match bdm.ebs.volumeSize with
          | some v => some v
          | none => ephemeralStorageDefaults family
        | none => ephemeralStorageDefaults family) := by
  unfold ephemeralStorageFamilySwitch
  rw [hb]
  cases hc : family.isCustom
  · rw [if_neg (by simp [hc]), if_neg (by simp [hc])]
  · rw [if_pos (by simp [hc]), if_pos (by simp [hc])]

/-- The source's block-device-mappings stage equals the spec chain under at
most one root-volume mapping. -/
theorem ephemeralStorageMappings_eq_chain (family : AMIFamilyStorage)
    (bdms : List BlockDeviceMapping) (hroot : bdms.countP (·.rootVolume) ≤ 1) :
    ephemeralStorageMappings family bdms = ephemeralStorageSpecChain family bdms := by
  unfold ephemeralStorageMappings ephemeralStorageSpecChain
  by_cases hb : bdms.isEmpty = true
  · obtain rfl := List.isEmpty_iff.mp hb
    cases hc : family.isCustom <;>
      simp [ephemeralStorageFamilySwitch, hc]
  · rw [if_neg hb, find?_root_size_of_count_le_one bdms hroot]
    have hb' : bdms.isEmpty = false := by simpa using hb
    rcases hf : bdms.find? (·.rootVolume) with _ | b
    · rw [hf]
      exact familySwitch_eq_chain_tail family bdms hb'
    · rw [hf]
      by_cases hs : b.ebs.volumeSize.isSome = true
      · obtain ⟨v, hv⟩ := Option.isSome_iff_exists.mp hs
        simp [hv]
      · have hvnone : b.ebs.volumeSize = none :=
          Option.not_isSome_iff_eq_none.mp (by simpa using hs)
        rw [show ((some b).bind fun b =>
              if b.ebs.volumeSize.isSome = true then some b else none) = none from by
            simp [hvnone]]
        simp only [hvnone]
        exact familySwitch_eq_chain_tail family bdms hb'

/-- C8 as amended: for node classes with at most one root-volume mapping (the
admission webhook rejects more), the computed ephemeral storage follows the
claimed strict precedence with the RAID0 rule keyed on a reported
instance-storage total size rather than on NVMe support. -/
theorem ephemeralStorage_precedence (storageInfo : Option InstanceStorageInfo)
    (family : AMIFamilyStorage) (bdms : List BlockDeviceMapping)
    (policy : Option InstanceStorePolicy)
    (hroot : bdms.countP (·.rootVolume) ≤ 1) :
    ephemeralStorage storageInfo family bdms policy =
      ephemeralStorageAmendedC8 storageInfo family bdms policy := by
  unfold ephemeralStorage ephemeralStorageAmendedC8
  by_cases hp : policy = some InstanceStorePolicy.RAID0
  · rw [if_pos hp]
    rcases storageInfo with _ | si
    · rw [if_neg (by simp [hasInstanceStoreSize])]
      exact ephemeralStorageMappings_eq_chain family bdms hroot
    · rcases hts : si.totalSizeInGB with _ | n
      · rw [if_neg (by simp [hasInstanceStoreSize, hts])]
        simp only [hts]
        exact ephemeralStorageMappings_eq_chain family bdms hroot
      · rw [if_pos (by simp [hp, hasInstanceStoreSize, hts])]
        simp [instanceStoreTotalSize, hts]
  · rw [if_neg hp, if_neg (by simp [hp])]
    exact ephemeralStorageMappings_eq_chain family bdms hroot

/-- Concrete mappings for the C8 witness: one sized root volume and one other
mapping. -/
def c8WitnessMappings : List BlockDeviceMapping :=
  [{ deviceName := some "/dev/sdb", ebs := { volumeSize := none }, rootVolume := false },
   { deviceName := some "/dev/xvda", ebs := { volumeSize := some 107374182400 },
     rootVolume := true }]

/-- Witness for the amended C8 at a concrete node class. -/
theorem ephemeralStorage_precedence_witness :
    c8WitnessMappings.countP (·.rootVolume) ≤ 1 ∧
    ephemeralStorage (some c8StorageInfo) c8Family c8WitnessMappings none =
      ephemeralStorageAmendedC8 (some c8StorageInfo) c8Family c8WitnessMappings none :=
  ⟨by decide,
   ephemeralStorage_precedence (some c8StorageInfo) c8Family c8WitnessMappings none
     (by decide)⟩

/-- Requirements admitting every capacity type and zone, for the C5
theorems. -/
def c5ReqsAll : Requirements := { ctHas := fun _ => true, zoneHas := fun _ => true }

/-- Concrete available on-demand offering at price 5. -/
def c5OD : Offering :=
  { capacityType := "on-demand", zone := "z1", price := 5, available := true }

/-- Concrete cheap available spot offering at price 2. -/
def c5SpotCheap : Offering :=
  { capacityType := "spot", zone := "z1", price := 2, available := true }

/-- Concrete expensive available spot offering at price 1000, far above
`0.72 * 5`. -/
def c5SpotExpensive : Offering :=
  { capacityType := "spot", zone := "z1", price := 1000, available := true }

/-- Concrete on-demand instance type. -/
def c5TypeA : InstanceType :=
  { name := "m5.large", offerings := [c5OD], sizeMetal := false, capNeuron := 0,
    capAMDGPU := 0, capNVIDIAGPU := 0, capHabanaGaudi := 0 }

/-- Concrete spot instance type whose cheapest offering is cheap but which
also carries the expensive spot offering. -/
def c5TypeB : InstanceType :=
  { name := "c5.large", offerings := [c5SpotCheap, c5SpotExpensive], sizeMetal := false,
    capNeuron := 0, capAMDGPU := 0, capNVIDIAGPU := 0, capHabanaGaudi := 0 }

/-- Concrete candidate list for the C5 counterexample. -/
def c5Its : List InstanceType := [c5TypeA, c5TypeB]

set_option maxRecDepth 4000 in
/-- C5 counterexample: in a mixed-capacity launch the filtering step keeps an
instance type whose offerings include an available spot offering priced far
above the cheapest viable on-demand price times 0.72 (the rule inspects only
each type's cheapest available offering, never the other spot offerings). -/
theorem filterInstanceTypes_expensive_spot_survives :
    isMixedCapacityLaunch c5ReqsAll (filterExoticInstanceTypes c5Its) = true ∧
    cheapestOnDemandPrice (filterExoticInstanceTypes c5Its) = 5 ∧
    filterInstanceTypes c5ReqsAll c5Its = [c5TypeA, c5TypeB] ∧
    c5SpotExpensive ∈ availableOfferings c5TypeB.offerings ∧
    c5SpotExpensive.capacityType = capacityTypeSpot ∧
    c5ReqsAll.zoneHas c5SpotExpensive.zone = true ∧
    ¬(c5SpotExpensive.price ≤ 5 * 0.72) := by
  decide

/-- C5 as amended: in a mixed-capacity launch the filtering step drops every
instance type whose cheapest available offering is a spot offering priced
above the cheapest available on-demand price times 0.72, and when the
requirements do not admit both capacity types (or no offerings of both kinds
exist in admitted zones) the spot-price rule is not applied at all. -/
theorem filterUnwantedSpot_cheapest_rule (reqs : Requirements) (its : List InstanceType) :
    (∀ it c, it ∈ filterExoticInstanceTypes its →
      cheapestOffering (availableOfferings it.offerings) = some c →
      c.capacityType = capacityTypeSpot →
      ¬(c.price ≤ cheapestOnDemandPrice (filterExoticInstanceTypes its) * 0.72) →
      isMixedCapacityLaunch reqs (filterExoticInstanceTypes its) = true →
      it ∉ filterInstanceTypes reqs its) ∧
    (isMixedCapacityLaunch reqs (filterExoticInstanceTypes its) = false →
      filterInstanceTypes reqs its = filterExoticInstanceTypes its) := by
  constructor
  · intro it c hmem hch hct hprice hmix hin
    simp only [filterInstanceTypes, hmix, if_true] at hin
    simp only [filterUnwantedSpot, List.mem_filter] at hin
    obtain ⟨-, hpred⟩ := hin
    rw [hch] at hpred
    have hctne : (c.capacityType == capacityTypeOnDemand) = false := by
      rw [hct]
      decide
    have hpred' : (if (c.capacityType == capacityTypeOnDemand) = true then
        decide (c.price ≤ cheapestOnDemandPrice (filterExoticInstanceTypes its))
      else
        decide (c.price ≤ cheapestOnDemandPrice (filterExoticInstanceTypes its) * 0.72)) =
        true := hpred
    rw [hctne] at hpred'
    simp only [Bool.false_eq_true, if_false, decide_eq_true_eq] at hpred'
    exact hprice hpred'
  · intro hmix
    simp only [filterInstanceTypes, hmix]
    rfl

/-- Concrete spot instance type whose cheapest (and only) available offering
is an expensive spot offering, for the C5 witness. -/
def c5TypeC : InstanceType :=
  { name := "c7.large",
    offerings := [{ capacityType := "spot", zone := "z1", price := 10, available := true }],
    sizeMetal := false, capNeuron := 0, capAMDGPU := 0, capNVIDIAGPU := 0,
    capHabanaGaudi := 0 }

/-- Concrete candidate list for the C5 witness. -/
def c5WIts : List InstanceType := [c5TypeA, c5TypeC]

set_option maxRecDepth 4000 in
/-- Witness for the amended C5: the type whose cheapest available offering is
spot at 10 (above `5 * 0.72`) is dropped; with requirements admitting only
on-demand, the spot-price rule does not run. -/
theorem filterUnwantedSpot_cheapest_rule_witness :
    c5TypeC ∉ filterInstanceTypes c5ReqsAll c5WIts ∧
    filterInstanceTypes { ctHas := fun s => s == "on-demand", zoneHas := fun _ => true }
        c5WIts = filterExoticInstanceTypes c5WIts :=
  ⟨(filterUnwantedSpot_cheapest_rule c5ReqsAll c5WIts).1 c5TypeC
      { capacityType := "spot", zone := "z1", price := 10, available := true }
      (by decide) (by decide) (by decide) (by decide) (by decide),
   (filterUnwantedSpot_cheapest_rule
      { ctHas := fun s => s == "on-demand", zoneHas := fun _ => true } c5WIts).2
      (by decide)⟩

/-- The comparator-induced order, characterized: `a` may stand before `b` iff
`a` is cheaper, or equally priced with a name that is not lexicographically
smaller. -/
theorem leInstanceType_iff (reqs : Requirements) (a b : InstanceType) :
    leInstanceType reqs a b ↔
      priceKey reqs a < priceKey reqs b ∨
        (priceKey reqs a = priceKey reqs b ∧ ¬a.name.data < b.name.data) := by
  unfold leInstanceType ltInstanceType nameGt
  by_cases h : priceKey reqs b = priceKey reqs a
  · rw [if_pos h]
    simp [h, decide_eq_false_iff_not]
  · rw [if_neg h]
    rw [decide_eq_false_iff_not, not_lt, le_iff_lt_or_eq]
    constructor
    · rintro (hlt | heq)
      · exact Or.inl hlt
      · exact absurd heq.symm h
    · rintro (hlt | ⟨heq, -⟩)
      · exact Or.inl hlt
      · exact absurd heq.symm h

instance (reqs : Requirements) : IsTotal InstanceType (leInstanceType reqs) := by
  refine ⟨fun a b => ?_⟩
  rw [leInstanceType_iff, leInstanceType_iff]
  rcases lt_trichotomy (priceKey reqs a) (priceKey reqs b) with h | h | h
  · exact Or.inl (Or.inl h)
  · by_cases hn : a.name.data < b.name.data
    · exact Or.inr (Or.inr ⟨h.symm, lt_asymm hn⟩)
    · exact Or.inl (Or.inr ⟨h, hn⟩)
  · exact Or.inr (Or.inl h)

instance (reqs : Requirements) : IsTrans InstanceType (leInstanceType reqs) := by
  refine ⟨fun a b c hab hbc => ?_⟩
  rw [leInstanceType_iff] at hab hbc ⊢
  rcases hab with h1 | ⟨h1, hn1⟩ <;> rcases hbc with h2 | ⟨h2, hn2⟩
  · exact Or.inl (lt_trans h1 h2)
  · exact Or.inl (lt_of_lt_of_le h1 (le_of_eq h2))
  · exact Or.inl (lt_of_le_of_lt (le_of_eq h1) h2)
  · refine Or.inr ⟨h1.trans h2, ?_⟩
    rw [not_lt] at hn1 hn2 ⊢
    exact le_trans hn2 hn1

/-- An offering delivered by the cheapest-offering fold came from the list or
was the initial accumulator. -/
theorem cheapestOffering_foldl_mem (l : List Offering) (init : Option Offering)
    (o : Offering)
    (h : l.foldl
        (fun acc o =>
          match acc with
          | none => some o
          | some c => if o.price < c.price then some o else some c) init = some o) :
    o ∈ l ∨ init = some o := by
  induction l generalizing init with
  | nil => exact Or.inr h
  | cons x xs ih =>
    rw [List.foldl_cons] at h
    rcases ih _ h with h1 | h1
    · exact Or.inl (List.mem_cons_of_mem _ h1)
    · rcases init with _ | c
      · obtain rfl := Option.some.inj h1
        exact Or.inl (List.mem_cons_self _ _)
      · have h1' : (if x.price < c.price then some x else some c) = some o := h1
        by_cases hp : x.price < c.price
        · rw [if_pos hp] at h1'
          obtain rfl := Option.some.inj h1'
          exact Or.inl (List.mem_cons_self _ _)
        · rw [if_neg hp] at h1'
          exact Or.inr h1'

/-- `Offerings.Cheapest` returns a member of its list. -/
theorem cheapestOffering_mem (l : List Offering) (o : Offering)
    (h : cheapestOffering l = some o) : o ∈ l := by
  rcases cheapestOffering_foldl_mem l none o h with h1 | h1
  · exact h1
  · cases h1

/-- The cheapest-offering fold never forgets a non-empty accumulator. -/
theorem cheapestOffering_foldl_ne_none (l : List Offering) (c : Offering) :
    l.foldl
      (fun acc o =>
        match acc with
        | none => some o
        | some c => if o.price < c.price then some o else some c) (some c) ≠ none := by
  induction l generalizing c with
  | nil => simp
  | cons x xs ih =>
    rw [List.foldl_cons]
    by_cases hp : x.price < c.price
    · simpa [hp] using ih x
    · simpa [hp] using ih c

/-- `Offerings.Cheapest` is none only on the empty list. -/
theorem cheapestOffering_eq_none (l : List Offering)
    (h : cheapestOffering l = none) : l = [] := by
  cases l with
  | nil => rfl
  | cons x xs => exact absurd h (cheapestOffering_foldl_ne_none xs x)

/-- A type with a viable offering has a price key below the sentinel, as long
as all its offering prices are below it. -/
theorem priceKey_lt_of_viable (reqs : Requirements) (it : InstanceType)
    (hp : ∀ o ∈ it.offerings, o.price < maxFloat64)
    (hne : offeringsRequirements reqs (availableOfferings it.offerings) ≠ []) :
    priceKey reqs it < maxFloat64 := by
  unfold priceKey
  rcases hc : cheapestOffering (offeringsRequirements reqs (availableOfferings it.offerings))
    with _ | o
  · exact absurd (cheapestOffering_eq_none _ hc) hne
  · have ho := cheapestOffering_mem _ _ hc
    have h1 : o ∈ availableOfferings it.offerings := (List.mem_filter.mp ho).1
    exact hp o (List.mem_filter.mp h1).1

/-- A type with no viable offering has the sentinel price key. -/
theorem priceKey_eq_maxFloat (reqs : Requirements) (it : InstanceType)
    (h : offeringsRequirements reqs (availableOfferings it.offerings) = []) :
    priceKey reqs it = maxFloat64 := by
  unfold priceKey
  rw [h]
  rfl

/-- C3: `orderInstanceTypesByPrice` permutes the candidates into an order
where earlier types are cheaper (by the cheapest available offering satisfying
the requirements) or tie on price with a lexicographically non-smaller name;
types with no viable offering sort after every type with one (given that real
offering prices lie below the `MaxFloat64` sentinel); and the truncation step
passes on at most `MaxInstanceTypes = 60` types, a prefix of the order. -/
theorem orderInstanceTypesByPrice_sorted (reqs : Requirements) (its : List InstanceType)
    (hp : ∀ it ∈ its, ∀ o ∈ it.offerings, o.price < maxFloat64) :
    (orderInstanceTypesByPrice reqs its).Perm its ∧
    List.Pairwise (fun a b =>
      priceKey reqs a < priceKey reqs b ∨
        (priceKey reqs a = priceKey reqs b ∧ ¬a.name.data < b.name.data))
      (orderInstanceTypesByPrice reqs its) ∧
    List.Pairwise (fun a b =>
      offeringsRequirements reqs (availableOfferings a.offerings) = [] →
      offeringsRequirements reqs (availableOfferings b.offerings) = [])
      (orderInstanceTypesByPrice reqs its) ∧
    truncateInstanceTypes (orderInstanceTypesByPrice reqs its) =
      (orderInstanceTypesByPrice reqs its).take MaxInstanceTypes ∧
    (truncateInstanceTypes (orderInstanceTypesByPrice reqs its)).length ≤
      MaxInstanceTypes := by
  have hperm : (orderInstanceTypesByPrice reqs its).Perm its :=
    List.perm_insertionSort _ _
  have hsorted := List.sorted_insertionSort (leInstanceType reqs) its
  have hpair : List.Pairwise (fun a b =>
      priceKey reqs a < priceKey reqs b ∨
        (priceKey reqs a = priceKey reqs b ∧ ¬a.name.data < b.name.data))
      (orderInstanceTypesByPrice reqs its) :=
    hsorted.imp (fun hab => (leInstanceType_iff reqs _ _).mp hab)
  refine ⟨hperm, hpair, ?_, ?_, ?_⟩
  · refine List.Pairwise.imp_of_mem ?_ hpair
    intro a b ha hb hab hA
    by_contra hB
    have hbmem : b ∈ its := hperm.mem_iff.mp hb
    have hlt := priceKey_lt_of_viable reqs b (hp b hbmem) hB
    have hA' := priceKey_eq_maxFloat reqs a hA
    rcases hab with h | ⟨h, -⟩
    · rw [hA'] at h
      exact absurd (lt_trans h hlt) (lt_irrefl _)
    · rw [hA'] at h
      rw [← h] at hlt
      exact absurd hlt (lt_irrefl _)
  · unfold truncateInstanceTypes
    by_cases hl : MaxInstanceTypes < (orderInstanceTypesByPrice reqs its).length
    · rw [if_pos hl]
    · rw [if_neg hl, List.take_of_length_le (le_of_not_lt hl)]
  · unfold truncateInstanceTypes
    by_cases hl : MaxInstanceTypes < (orderInstanceTypesByPrice reqs its).length
    · rw [if_pos hl]
      simp
    · rw [if_neg hl]
      exact le_of_not_lt hl

/-- Requirements admitting everything, for the C3 witness. -/
def c3Reqs : Requirements := { ctHas := fun _ => true, zoneHas := fun _ => true }

/-- Newer-generation type at price 3 for the C3 witness. -/
def c3TypeTie1 : InstanceType :=
  { name := "c6i.large",
    offerings := [{ capacityType := "spot", zone := "z1", price := 3, available := true }],
    sizeMetal := false, capNeuron := 0, capAMDGPU := 0, capNVIDIAGPU := 0,
    capHabanaGaudi := 0 }

/-- Older-generation type, also at price 3, for the C3 witness. -/
def c3TypeTie2 : InstanceType :=
  { name := "c5.large",
    offerings := [{ capacityType := "spot", zone := "z1", price := 3, available := true }],
    sizeMetal := false, capNeuron := 0, capAMDGPU := 0, capNVIDIAGPU := 0,
    capHabanaGaudi := 0 }

/-- Cheapest type, at price 1, for the C3 witness. -/
def c3TypeCheap : InstanceType :=
  { name := "m5.large",
    offerings :=
      [{ capacityType := "on-demand", zone := "z1", price := 1, available := true }],
    sizeMetal := false, capNeuron := 0, capAMDGPU := 0, capNVIDIAGPU := 0,
    capHabanaGaudi := 0 }

/-- Type with no offering at all, for the C3 witness: it must sort last. -/
def c3TypeNone : InstanceType :=
  { name := "x1.large", offerings := [], sizeMetal := false, capNeuron := 0,
    capAMDGPU := 0, capNVIDIAGPU := 0, capHabanaGaudi := 0 }

/-- Concrete candidate list for the C3 witness. -/
def c3Its : List InstanceType := [c3TypeNone, c3TypeTie2, c3TypeCheap, c3TypeTie1]

set_option maxRecDepth 4000 in
/-- Witness for C3 at a concrete candidate list with a price tie and a type
with no offerings. -/
theorem orderInstanceTypesByPrice_sorted_witness :
    (∀ it ∈ c3Its, ∀ o ∈ it.offerings, o.price < maxFloat64) ∧
    ((orderInstanceTypesByPrice c3Reqs c3Its).Perm c3Its ∧
     List.Pairwise (fun a b =>
       priceKey c3Reqs a < priceKey c3Reqs b ∨
         (priceKey c3Reqs a = priceKey c3Reqs b ∧ ¬a.name.data < b.name.data))
       (orderInstanceTypesByPrice c3Reqs c3Its) ∧
     List.Pairwise (fun a b =>
       offeringsRequirements c3Reqs (availableOfferings a.offerings) = [] →
       offeringsRequirements c3Reqs (availableOfferings b.offerings) = [])
       (orderInstanceTypesByPrice c3Reqs c3Its) ∧
     truncateInstanceTypes (orderInstanceTypesByPrice c3Reqs c3Its) =
       (orderInstanceTypesByPrice c3Reqs c3Its).take MaxInstanceTypes ∧
     (truncateInstanceTypes (orderInstanceTypesByPrice c3Reqs c3Its)).length ≤
       MaxInstanceTypes) :=
  ⟨by decide, orderInstanceTypesByPrice_sorted c3Reqs c3Its (by decide)⟩

end Karpenter
